import Mathlib

/-!
Verification of the topic-analysis aggregation pipeline of the prism-app
repository, centred on the `POST /api/analyze` route
(`src/unnamed/part_009`), its Reddit source client, its normalizer, its
prompt construction and its response handling, together with the
client-side payload validation in `src/app/analysis/page.tsx`.

The route is JavaScript/TypeScript running on untyped JSON values, so the
embedding models JS values with an inductive `Json` type and translates
each function of the source into a total Lean function over it.  External
interactions (the Reddit OAuth token call, the Reddit search call, the
Gemini HTTP call, the request-body parse) are supplied as oracle inputs
recording what the outside world returned; platform primitives that the
source calls but does not define (`JSON.parse`, runtime error messages)
are parameters of the model, bundled in a `Platform` structure.
-/

set_option maxHeartbeats 1000000

/-! ## JS value model -/

mutual

/-- A JSON/JS value.  `obj` carries its fields in insertion order; numbers
are modelled as integers (no claim depends on non-integral numerics). -/
inductive Json where
  | null
  | bool (b : Bool)
  | num (n : Int)
  | str (s : String)
  | arr (xs : JsonList)
  | obj (fields : JsonFields)
deriving DecidableEq

/-- A list of JSON values (spelled out so that recursion over `Json`
stays structural and computable). -/
inductive JsonList where
  | nil
  | cons (hd : Json) (tl : JsonList)
deriving DecidableEq

/-- Key/value fields of a JSON object, in insertion order. -/
inductive JsonFields where
  | nil
  | cons (key : String) (val : Json) (tl : JsonFields)
deriving DecidableEq

end

/-- Convert a `JsonList` to an ordinary list. -/
def JsonList.toList : JsonList → List Json
  | .nil => []
  | .cons x xs => x :: xs.toList

/-- Build a `JsonList` from an ordinary list. -/
def JsonList.ofList : List Json → JsonList
  | [] => .nil
  | x :: xs => .cons x (JsonList.ofList xs)

/-- Length of a `JsonList`. -/
def JsonList.length : JsonList → Nat
  | .nil => 0
  | .cons _ xs => xs.length + 1

/-- Element at an index of a `JsonList`. -/
def JsonList.get? : JsonList → Nat → Option Json
  | .nil, _ => none
  | .cons x _, 0 => some x
  | .cons _ xs, n + 1 => xs.get? n

/-- Build object fields from an ordinary association list. -/
def JsonFields.ofList : List (String × Json) → JsonFields
  | [] => .nil
  | (k, v) :: fs => .cons k v (JsonFields.ofList fs)

/-- The value a JS property read returns for key `k` on an object with
these fields: the value of the LAST binding of `k` (a JS object holds one
binding per key, the last assignment winning, as in `JSON.parse` and in
object literals). `none` plays the role of `undefined`. -/
def JsonFields.find (k : String) : JsonFields → Option Json
  | .nil => none
  | .cons k' v tl => match tl.find k with
    | some w => some w
    | none => if k' = k then some v else none

/-- Shorthand: a JSON array from a `List`. -/
def jarr (xs : List Json) : Json := .arr (JsonList.ofList xs)

/-- Shorthand: a JSON object from an association list. -/
def jobj (fs : List (String × Json)) : Json := .obj (JsonFields.ofList fs)

/-- JS property access `j.k` on a value known not to be null/undefined:
an object yields its field (or undefined); any other primitive yields
undefined. (Built-in properties of primitives, such as `"s".length`, are
not modelled; the program never reads such a key.) -/
def Json.member (j : Json) (k : String) : Option Json :=
  match j with
  | .obj fs => fs.find k
  | _ => none

/-- JS index access `j[i]`: array element, object field named `toString i`,
or single character of a string. -/
def Json.item (j : Json) (i : Nat) : Option Json :=
  match j with
  | .arr xs => xs.get? i
  | .obj fs => fs.find (toString i)
  | .str s => (s.data.get? i).map (fun c => .str (String.singleton c))
  | _ => none

/-- JS truthiness; `undefined`, `null`, `false`, `0` and `""` are falsy. -/
def jsFalsy : Json → Bool
  | .null => true
  | .bool b => !b
  | .num n => if n = 0 then true else false
  | .str s => if s = "" then true else false
  | .arr _ => false
  | .obj _ => false

/-- Truthiness of a possibly-undefined value (`none` = `undefined`). -/
def jsFalsyO : Option Json → Bool
  | none => true
  | some j => jsFalsy j

/-- JS short-circuit `a || b` on possibly-undefined values. -/
def jsOrO (a b : Option Json) : Option Json :=
  if jsFalsyO a then b else a

/-- Optional-chaining step `v?.…`: short-circuits to undefined when the
receiver is null or undefined, else applies the access. -/
def optChain (v : Option Json) (f : Json → Option Json) : Option Json :=
  match v with
  | none => none
  | some .null => none
  | some j => f j

/-- Does `typeof v === 'string'` hold? -/
def isStrO : Option Json → Bool
  | some (.str _) => true
  | _ => false

/-- Extract the string of a string value (used only after `isStrO`). -/
def asStrO : Option Json → String
  | some (.str s) => s
  | _ => ""

mutual

/-- JS `String(v)` coercion, as used by template literals. -/
def jsToString : Json → String
  | .null => "null"
  | .bool b => if b then "true" else "false"
  | .num n => toString n
  | .str s => s
  | .arr xs => jsListToString xs
  | .obj _ => "[object Object]"
termination_by structural j => j

/-- JS `Array.prototype.toString` = `join(",")`, where null elements
render as the empty string. -/
def jsListToString : JsonList → String
  | .nil => ""
  | .cons .null .nil => ""
  | .cons x .nil => jsToString x
  | .cons .null tl => "," ++ jsListToString tl
  | .cons x tl => jsToString x ++ "," ++ jsListToString tl
termination_by structural l => l

end

/-- JS string coercion of a possibly-undefined value: `undefined` renders
as `"undefined"` inside a template literal. -/
def jsToStringO : Option Json → String
  | none => "undefined"
  | some j => jsToString j

/-! ## JSON.stringify (with indent 2, as the prompt uses) -/

/-- One hexadecimal digit (lowercase). -/
def hexDigit (n : Nat) : Char :=
  if n < 10 then Char.ofNat ('0'.toNat + n) else Char.ofNat ('a'.toNat + (n - 10))

/-- Four-digit lowercase hex, for `\uXXXX` escapes. -/
def hex4 (n : Nat) : String :=
  String.mk [hexDigit (n / 4096 % 16), hexDigit (n / 256 % 16),
    hexDigit (n / 16 % 16), hexDigit (n % 16)]

/-- JSON string escaping of one character, as `JSON.stringify` performs. -/
def quoteChar (c : Char) : String :=
  if c = '"' then "\\\""
  else if c = '\\' then "\\\\"
  else if c = '\n' then "\\n"
  else if c = '\r' then "\\r"
  else if c = '\t' then "\\t"
  else if c = '\x08' then "\\b"
  else if c = '\x0c' then "\\f"
  else if c.toNat < 32 then "\\u" ++ hex4 c.toNat
  else String.singleton c

/-- JSON string quoting, as `JSON.stringify` performs on strings. -/
def quoteJson (s : String) : String :=
  "\"" ++ String.join (s.data.map quoteChar) ++ "\""

mutual

/-- `JSON.stringify(v, null, 2)` at nesting prefix `gap` (the source uses
it on document metadata when building the prompt). -/
def stringifyVal (gap : String) : Json → String
  | .null => "null"
  | .bool b => if b then "true" else "false"
  | .num n => toString n
  | .str s => quoteJson s
  | .arr .nil => "[]"
  | .arr xs => "[\n" ++ stringifyItems (gap ++ "  ") xs ++ "\n" ++ gap ++ "]"
  | .obj .nil => "\x7b\x7d"
  | .obj fs => "\x7b\n" ++ stringifyFields (gap ++ "  ") fs ++ "\n" ++ gap ++ "\x7d"
termination_by structural j => j

/-- Array items of `JSON.stringify` output, one per line. -/
def stringifyItems (gap : String) : JsonList → String
  | .nil => ""
  | .cons x .nil => gap ++ stringifyVal gap x
  | .cons x tl => gap ++ stringifyVal gap x ++ ",\n" ++ stringifyItems gap tl
termination_by structural l => l

/-- Object fields of `JSON.stringify` output, one per line. -/
def stringifyFields (gap : String) : JsonFields → String
  | .nil => ""
  | .cons k v .nil => gap ++ quoteJson k ++ ": " ++ stringifyVal gap v
  | .cons k v tl =>
    gap ++ quoteJson k ++ ": " ++ stringifyVal gap v ++ ",\n" ++ stringifyFields gap tl
termination_by structural l => l

end

/-! ## Substring test (for non-leakage statements) -/

/-- Does `pat` occur at the front of `l`? -/
def listLeads : List Char → List Char → Bool
  | [], _ => true
  | _ :: _, [] => false
  | c :: cs, d :: ds => c = d && listLeads cs ds

/-- Does `pat` occur anywhere inside `l`? -/
def listHas (pat : List Char) : List Char → Bool
  | [] => listLeads pat []
  | l@(_ :: rest) => listLeads pat l || listHas pat rest

/-- Does string `pat` occur inside string `s`? -/
def strHas (pat s : String) : Bool := listHas pat.data s.data

/-! ## Source clients (part_009 lines 31-80) and reddit-auth oracle -/

/-- `encodeURIComponent` unreserved characters (kept verbatim). -/
def uriUnreserved (c : Char) : Bool :=
  c.isAlpha || c.isDigit ||
    (c = '-' || c = '_' || c = '.' || c = '!' || c = '~' || c = '*' ||
      c = Char.ofNat 39 || c = '(' || c = ')')

/-- One hexadecimal digit (uppercase), for percent-escapes. -/
def hexDigitU (n : Nat) : Char :=
  if n < 10 then Char.ofNat ('0'.toNat + n) else Char.ofNat ('A'.toNat + (n - 10))

/-- UTF-8 bytes of a code point. -/
def utf8Bytes (n : Nat) : List Nat :=
  if n < 128 then [n]
  else if n < 2048 then [192 + n / 64, 128 + n % 64]
  else if n < 65536 then [224 + n / 4096, 128 + n / 64 % 64, 128 + n % 64]
  else [240 + n / 262144, 128 + n / 4096 % 64, 128 + n / 64 % 64, 128 + n % 64]

/-- Percent-escape of one byte. -/
def pctByte (b : Nat) : String := "%" ++ String.mk [hexDigitU (b / 16), hexDigitU (b % 16)]

/-- JS `encodeURIComponent`: unreserved characters kept, every other
character percent-escaped per UTF-8 byte. -/
def encodeURIComponent (s : String) : String :=
  String.join (s.data.map fun c =>
    if uriUnreserved c then String.singleton c
    else String.join ((utf8Bytes c.toNat).map pctByte))

/-- The Reddit search endpoint string built by `fetchRedditPosts`
(part_009 line 53). -/
def redditEndpoint (topic : String) : String :=
  "/search?q=" ++ encodeURIComponent topic ++ "&sort=relevance&limit=10&type=link"

/-- The record shape `fetchRedditPosts` builds from one Reddit child
(part_009 lines 62-74).  Fields read off the raw post are possibly
undefined JS values (`Option Json`); `permalink` is the template-literal
string `https://reddit.com${post.permalink}`. -/
structure RedditPost where
  id : Option Json
  title : Option Json
  selftext : Option Json
  author : Option Json
  subreddit : Option Json
  score : Option Json
  num_comments : Option Json
  created_utc : Option Json
  url : Option Json
  permalink : String
  thumbnail : Option Json
deriving DecidableEq

/-- The body of the `map` over `data.data.children` (part_009 lines
60-75).  `none` models a thrown TypeError: reading `child.data` when
`child` is null/undefined or not an object carrying `data`, or reading
`post.id` when `post` is null/undefined, throws in JS and is caught by
the surrounding `try`, making `fetchRedditPosts` return `[]`. -/
def transformChild (child : Json) : Option RedditPost :=
  match child.member "data" with
  | none => none
  | some post =>
    if post = .null then none
    else some {
      id := post.member "id"
      title := post.member "title"
      selftext := post.member "selftext"
      author := post.member "author"
      subreddit := post.member "subreddit"
      score := post.member "score"
      num_comments := post.member "num_comments"
      created_utc := post.member "created_utc"
      url := post.member "url"
      permalink := "https://reddit.com" ++ jsToStringO (post.member "permalink")
      thumbnail :=
        if post.member "thumbnail" = some (.str "self") then some .null
        else post.member "thumbnail" }

/-- JS `Array.prototype.map` with a body that can throw: the first throw
aborts the whole map (`none`). -/
def mapThrow {α β : Type} (f : α → Option β) : List α → Option (List β)
  | [] => some []
  | x :: xs => match f x with
    | none => none
    | some y => (mapThrow f xs).map (y :: ·)

/-- What the outside world returned to `fetchRedditPosts`:
`tokenResult = none` models `getRedditAccessToken()` throwing (missing
credentials, non-ok token response, or absent `access_token`,
reddit-auth.ts lines 36-65); `fetchResult = none` models
`fetchRedditData` throwing (non-ok status or unparseable body,
reddit-auth.ts lines 80-98). -/
structure RedditOracle where
  tokenResult : Option String
  fetchResult : Option Json
deriving DecidableEq

/-- `fetchRedditPosts` (part_009 lines 48-80): every failure -- token
throw, fetch throw, missing/non-array `data.data?.children`, or a child
whose transformation throws -- is caught (or guarded) and yields `[]`. -/
def fetchRedditPosts (o : RedditOracle) : List RedditPost :=
  match o.tokenResult with
  | none => []
  | some _ =>
    match o.fetchResult with
    | none => []
    | some data =>
      if data = .null then []
      else
        match optChain (data.member "data") (fun d => d.member "children") with
        | some (.arr xs) => (mapThrow transformChild xs.toList).getD []
        | _ => []

/-- `fetchWebResults` (part_009 lines 32-37): a placeholder that always
returns the empty list and performs no network call. -/
def fetchWebResults (_topic : String) : List Json := []

/-! ## Normalizer (part_009 lines 90-117) -/

/-- A normalized document as built by `normalizeData`.  `metadata` is the
object-literal value; object keys whose value is undefined are dropped at
construction, which is observationally equal for every later use
(`JSON.stringify` into the prompt and JSON response serialization both
drop undefined-valued keys, and object truthiness ignores fields). -/
structure Doc where
  source : String
  title : Option Json
  url : Option Json
  snippet : Option Json
  metadata : Json
deriving DecidableEq

/-- A field of an object literal whose value may be undefined. -/
def optField (k : String) (v : Option Json) : List (String × Json) :=
  match v with
  | none => []
  | some j => [(k, j)]

/-- The web branch of `normalizeData` (part_009 lines 94-100). -/
def normWebRecord (a : Json) : Doc :=
  { source := "Web"
    title := jsOrO (jsOrO (a.member "title") (a.member "name")) (some (.str ""))
    url := jsOrO (jsOrO (a.member "url") (a.member "link")) (some (.str ""))
    snippet := jsOrO (jsOrO (a.member "snippet") (a.member "description")) (some (.str ""))
    metadata := .obj .nil }

/-- The Reddit branch of `normalizeData` (part_009 lines 102-114). -/
def normRedditPost (post : RedditPost) : Doc :=
  { source := "Reddit"
    title := post.title
    url := some (.str post.permalink)
    snippet := jsOrO post.selftext post.title
    metadata := jobj (optField "subreddit" post.subreddit ++ optField "author" post.author ++
      optField "score" post.score ++ optField "comments" post.num_comments ++
      optField "created_utc" post.created_utc) }

/-- `normalizeData` (part_009 lines 90-117): maps each source's records
to documents and concatenates web before Reddit.  No record is filtered
out. -/
def normalizeData (web : List Json) (redditPosts : List RedditPost) : List Doc :=
  web.map normWebRecord ++ redditPosts.map normRedditPost

/-! ## Prompt construction (part_009 lines 131-194) -/

/-- One entry of the enumerated source listing: the inner template
literal of `docs.map((d, i) => ...)` (part_009 lines 138-142). -/
def docEntry (i : Nat) (d : Doc) : String :=
  "[" ++ toString (i + 1) ++ "] Source: " ++ d.source ++
    "\nTitle: " ++ jsToStringO d.title ++
    "\nContent: " ++ jsToStringO d.snippet ++ "\n" ++
    (if jsFalsy d.metadata then ""
     else "Additional Context: " ++ stringifyVal "" d.metadata) ++ "\n"

/-- The listing entries in order, with their 0-based map index. -/
def entriesFrom (i : Nat) : List Doc → List String
  | [] => []
  | d :: ds => docEntry i d :: entriesFrom (i + 1) ds

/-- JS `Array.prototype.join('\n')`. -/
def joinNL : List String → String
  | [] => ""
  | [x] => x
  | x :: y :: xs => x ++ "\n" ++ joinNL (y :: xs)

/-- The fallback text used when the document list is empty (part_009
line 142). -/
def noSourcesText : String :=
  "No external sources provided. Rely on your internal knowledge."

/-- The `${docs.length > 0 ? ... : ...}` interpolation of the prompt
(part_009 lines 138-142). -/
def sourcesSection (docs : List Doc) : String :=
  if docs.length > 0 then joinNL (entriesFrom 0 docs) else noSourcesText

/-- The prompt up to and including the sources header (part_009 lines
131-137), with the topic and the document count interpolated. -/
def promptHeader (topic : String) (n : Nat) : String :=
  "\nYou are a world-class analytical AI, renowned for your ability to synthesize information with nuance and clarity.\nYour task is to analyze the provided topic using diverse sources including news, social media (X/Twitter), Reddit discussions, and web content.\n\n**Topic:** \"" ++
    topic ++ "\"\n\n**Sources (" ++ toString n ++ " total):**\n"

/-- The instruction block between the source listing and the schema
example (part_009 lines 143-154). -/
def promptInstructions : String :=
  "\n\n---\n\n**Instructions:**\nAnalyze the topic using all available sources and your knowledge. Pay special attention to:\n- Different perspectives from various platforms (News vs Social Media vs Forums)\n- Real-time social sentiment from X posts\n- Community discussions from Reddit\n- Factual reporting from news sources\n\nGenerate a JSON object with the following exact structure:\n\n"

/-- The literal JSON schema example embedded in the prompt (part_009
lines 155-186). -/
def promptSchema : String :=
  "\x7b\n  \"summary\": \"A concise, neutral, and synthesized summary of the entire topic, written in an encyclopedic tone.\",\n  \"perspectives\": [\n    \x7b\n      \"title\": \"Name of the First Perspective (e.g., Economic Viewpoint)\",\n      \"sentiment\": \"Positive\",\n      \"key_points\": [\n        \"First key takeaway or argument of this perspective.\",\n        \"Second key takeaway or argument.\"\n      ],\n      \"content\": \"A detailed, paragraph-form explanation of this perspective.\"\n    \x7d,\n    \x7b\n      \"title\": \"Name of the Second Perspective (e.g., Geopolitical Stance)\",\n      \"sentiment\": \"Negative\",\n      \"key_points\": [\n        \"First key takeaway or argument of this perspective.\",\n        \"Second key takeaway or argument.\"\n      ],\n      \"content\": \"A detailed, paragraph-form explanation of this perspective.\"\n    \x7d\n  ],\n  \"contrasting_points\": [\n      \"A point summarizing a key area of disagreement or contrast between perspectives.\",\n      \"Another point highlighting a direct conflict in the provided information.\"\n  ],\n  \"insights\": [\n    \"A hidden insight or subtle observation from the data.\",\n    \"A note on potential bias found in the sources.\",\n    \"An observation about an interesting overlap between seemingly unrelated points.\"\n  ]\n\x7d"

/-- The first rule lines of the prompt (part_009 lines 187-189). -/
def promptRulesA : String :=
  "\n\n**Rules:**\n- Your entire response MUST be a single, valid JSON object. Do not include any text, markdown, or explanations outside of it.\n"

/-- The sentiment rule line of the prompt (part_009 line 190) -- the only
place the three-value sentiment enum is enforced: an instruction to the
model. -/
def sentimentRule : String :=
  "- **Sentiment** must be one of three strings: \"Positive\", \"Negative\", or \"Neutral\".\n"

/-- The remaining rule lines of the prompt (part_009 lines 191-194). -/
def promptRulesB : String :=
  "- **key_points**, **contrasting_points**, and **insights** must be arrays of strings.\n- If you cannot find multiple perspectives, provide one broad, balanced perspective.\n- If no specific insights, contrasts, or key points are found, return an empty array [] for that field.\n"

/-- Everything of the prompt after the source listing. -/
def promptFooter : String :=
  promptInstructions ++ promptSchema ++ promptRulesA ++ sentimentRule ++ promptRulesB

/-- The `prompt` template literal computed inside `callGeminiFlash`
(part_009 lines 131-194). -/
def geminiPrompt (topic : String) (docs : List Doc) : String :=
  promptHeader topic docs.length ++ sourcesSection docs ++ promptFooter

/-! ## Gemini call (part_009 lines 126-223) -/

/-- What the Gemini HTTP round trip returned: `ok` is `res.ok`, and
`body` is the result of `await res.json()` (`none` models `res.json()`
throwing because the body was not JSON). -/
structure GeminiResponse where
  ok : Bool
  body : Option Json
deriving DecidableEq

/-- The extraction `data.candidates?.[0]?.content?.parts?.[0]?.text`
(part_009 line 214).  The first access `data.candidates` is a plain
property read, so it throws a TypeError (`.error`) when `data` is JSON
null; every later step uses optional chaining. -/
def candidateTextVal (data : Json) : Except Unit (Option Json) :=
  if data = .null then .error ()
  else .ok (optChain (optChain (optChain (optChain
    (optChain (data.member "candidates") (fun c => c.item 0))
    (fun c => c.member "content"))
    (fun c => c.member "parts"))
    (fun p => p.item 0))
    (fun p => p.member "text"))

/-- Platform primitives the source calls but does not define: `JSON.parse`
(returning `none` on a SyntaxError) and the runtime-generated messages of
errors thrown by the platform rather than by the source (their exact text
is engine-dependent; no claim depends on it). -/
structure Platform where
  parse : String → Option Json
  reqBodyParseMsg : String
  reqBodyNullMsg : String
  geminiBodyParseMsg : String
  geminiNullBodyMsg : String

/-- The errors `callGeminiFlash` can throw, with the message each `Error`
carries (part_009 lines 128, 211, 221; the two platform-thrown cases are
the gemini `res.json()` SyntaxError and the TypeError from reading
`.candidates` on a null body). -/
inductive GeminiError where
  | missingKey
  | requestFailed
  | bodyNotJson
  | nullBody
  | malformed
deriving DecidableEq

/-- `err.message` for each error `callGeminiFlash` throws. -/
def GeminiError.message (pf : Platform) : GeminiError → String
  | .missingKey => "Missing Gemini API key"
  | .requestFailed => "Gemini API request failed"
  | .bodyNotJson => pf.geminiBodyParseMsg
  | .nullBody => pf.geminiNullBodyMsg
  | .malformed => "Failed to parse analysis from AI response."

/-- `callGeminiFlash` (part_009 lines 126-223), with the HTTP round trip
supplied as an oracle: missing key throws before any fetch; a non-ok
response throws; otherwise the candidate text (or `'{}'` when that text
is falsy) is parsed as JSON, a parse failure throwing the typed
malformed-response error. -/
def callGeminiFlash (pf : Platform) (hasKey : Bool) (resp : GeminiResponse) :
    Except GeminiError Json :=
  if hasKey = false then .error .missingKey
  else if resp.ok = false then .error .requestFailed
  else
    match resp.body with
    | none => .error .bodyNotJson
    | some data =>
      match candidateTextVal data with
      | .error _ => .error .nullBody
      | .ok tv =>
        let text := if jsFalsyO tv then "\x7b\x7d" else jsToStringO tv
        match pf.parse text with
        | some j => .ok j
        | none => .error .malformed

/-! ## POST /api/analyze (part_009 lines 231-267) -/

/-- Fields of an object, in order. -/
def JsonFields.toList : JsonFields → List (String × Json)
  | .nil => []
  | .cons k v fs => (k, v) :: fs.toList

/-- One JS object-literal assignment: an existing binding of the key is
overwritten in place, a new key is appended. -/
def upsert : List (String × Json) → String → Json → List (String × Json)
  | [], k, v => [(k, v)]
  | (k', v') :: rest, k, v =>
    if k' = k then (k, v) :: rest else (k', v') :: upsert rest k v

/-- Build the field list of a JS object literal from its assignments in
order (later assignments of a key overwrite earlier ones). -/
def buildObj (kvs : List (String × Json)) : List (String × Json) :=
  kvs.foldl (fun acc p => upsert acc p.1 p.2) []

/-- The own enumerable properties contributed by a JS spread `...v`:
an object's fields; an array's or string's indexed elements; nothing for
any other primitive. -/
def spreadFields : Json → List (String × Json)
  | .obj fs => fs.toList
  | .arr xs => xs.toList.enum.map (fun p => (toString p.1, p.2))
  | .str s => s.data.enum.map (fun p => (toString p.1, .str (String.singleton p.2)))
  | _ => []

/-- A `Doc` as it appears JSON-serialized in the response `sources` list
(undefined-valued keys are dropped by JSON serialization). -/
def docJson (d : Doc) : Json :=
  jobj ([("source", .str d.source)] ++ optField "title" d.title ++ optField "url" d.url ++
    optField "snippet" d.snippet ++ [("metadata", d.metadata)])

/-- The `sourceStats` object of the response (part_009 lines 257-261). -/
def sourceStatsJson (web reddit total : Nat) : Json :=
  jobj [("web", .num web), ("reddit", .num reddit), ("total", .num total)]

/-- The body of the 200 response (part_009 lines 253-262): the object
literal `{ topic, ...analysisData, sources, sourceStats }`. -/
def successBody (topic : String) (analysisData : Json) (docs : List Doc)
    (webLen redditLen : Nat) : Json :=
  jobj (buildObj ([("topic", .str topic)] ++ spreadFields analysisData ++
    [("sources", jarr (docs.map docJson)),
     ("sourceStats", sourceStatsJson webLen redditLen docs.length)]))

/-- The body of the catch-all 500 response (part_009 line 265):
`{ error: err.message || 'Internal server error' }`. -/
def errBody (msg : String) : Json :=
  jobj [("error", .str (if msg = "" then "Internal server error" else msg))]

/-- An HTTP response of the route. -/
structure HttpResponse where
  status : Nat
  body : Json
deriving DecidableEq

/-- The external calls the handler can perform, in order.  The web fetch
is a placeholder that performs no call (part_009 lines 32-37); the
Reddit client first requests a token, then -- only when that succeeded --
performs the search call; the Gemini fetch happens whenever the API key
is present. -/
inductive Effect where
  | redditTokenCall
  | redditFetchCall
  | geminiCall
deriving DecidableEq

/-- The external calls `fetchRedditPosts` performs. -/
def redditEffects (o : RedditOracle) : List Effect :=
  match o.tokenResult with
  | none => [.redditTokenCall]
  | some _ => [.redditTokenCall, .redditFetchCall]

/-- The external calls `callGeminiFlash` performs (the missing-key throw
happens before the fetch). -/
def geminiEffects (hasKey : Bool) : List Effect :=
  if hasKey then [.geminiCall] else []

/-- What the outside world supplied to one `POST` invocation:
`body = none` models `req.json()` throwing (unparseable request body). -/
structure PostOracle where
  body : Option Json
  reddit : RedditOracle
  hasGeminiKey : Bool
  gemini : GeminiResponse

/-- The `POST` handler (part_009 lines 231-267), returning the response
together with the external calls performed.  Reading `topic` from a JSON
null body throws a TypeError (destructuring null), caught by the
catch-all; a missing/falsy/non-string topic is rejected with 400 before
any fetch; otherwise sources are fetched, normalized, sent to Gemini,
and the spread of the analysis object is returned with `topic`,
`sources` and `sourceStats`. -/
def POST (pf : Platform) (o : PostOracle) : HttpResponse × List Effect :=
  match o.body with
  | none => ({ status := 500, body := errBody pf.reqBodyParseMsg }, [])
  | some b =>
    if b = .null then ({ status := 500, body := errBody pf.reqBodyNullMsg }, [])
    else
      let topicVal := b.member "topic"
      if jsFalsyO topicVal || !(isStrO topicVal) then
        ({ status := 400, body := jobj [("error", .str "Missing or invalid topic")] }, [])
      else
        let topic := asStrO topicVal
        let web := fetchWebResults topic
        let redditPosts := fetchRedditPosts o.reddit
        let docs := normalizeData web redditPosts
        let eff := redditEffects o.reddit
        match callGeminiFlash pf o.hasGeminiKey o.gemini with
        | .error e =>
          ({ status := 500, body := errBody (e.message pf) }, eff ++ geminiEffects o.hasGeminiKey)
        | .ok analysisData =>
          ({ status := 200,
             body := successBody topic analysisData docs web.length redditPosts.length },
           eff ++ [.geminiCall])

/-! ## Client-side payload validation (src/app/analysis/page.tsx lines 199-206) -/

/-- The `AnalysisData` shape the analysis page consumes. -/
structure AnalysisData where
  summary : Json
  perspectives : List Json
  contrasting_points : List Json
  insights : List Json
  sources : List Json
deriving DecidableEq

/-- The `validatedData` construction of `fetchAnalysis` (page.tsx lines
199-206): `summary` falls back to a placeholder when falsy, and each of
the four list fields is kept only when it is an array, else replaced by
`[]`.  No element-level validation (in particular none of `sentiment`)
is performed. -/
def validatedData (data : Json) : AnalysisData :=
  { summary := match data.member "summary" with
      | some j => if jsFalsy j then .str "No summary provided." else j
      | none => .str "No summary provided."
    perspectives := match data.member "perspectives" with
      | some (.arr xs) => xs.toList
      | _ => []
    contrasting_points := match data.member "contrasting_points" with
      | some (.arr xs) => xs.toList
      | _ => []
    insights := match data.member "insights" with
      | some (.arr xs) => xs.toList
      | _ => []
    sources := match data.member "sources" with
      | some (.arr xs) => xs.toList
      | _ => [] }

/-! ## Helper lemmas -/

theorem string_data_append (a b : String) : (a ++ b).data = a.data ++ b.data := by
  cases a; cases b; rfl

theorem string_append_assoc (a b c : String) : a ++ b ++ c = a ++ (b ++ c) := by
  cases a; cases b; cases c
  show String.mk _ = String.mk _
  simp [String.append]

/-- Last-wins field lookup on an association list, mirroring
`JsonFields.find`. -/
def listFind (k : String) : List (String × Json) → Option Json
  | [] => none
  | (k', v) :: tl => match listFind k tl with
    | some w => some w
    | none => if k' = k then some v else none

theorem find_ofList (l : List (String × Json)) (k : String) :
    (JsonFields.ofList l).find k = listFind k l := by
  induction l with
  | nil => rfl
  | cons p tl ih =>
    obtain ⟨k', v⟩ := p
    simp only [JsonFields.ofList, JsonFields.find, listFind, ih]

theorem find_toList : ∀ (fs : JsonFields) (k : String), listFind k fs.toList = fs.find k
  | .nil, _ => rfl
  | .cons k' v tl, k => by
    simp only [JsonFields.toList, JsonFields.find, listFind, find_toList tl k]

theorem keys_upsert (fs : List (String × Json)) (k : String) (v : Json) :
    (upsert fs k v).map Prod.fst = fs.map Prod.fst ∨
      (upsert fs k v).map Prod.fst = fs.map Prod.fst ++ [k] := by
  induction fs with
  | nil => right; rfl
  | cons p tl ih =>
    obtain ⟨k', v'⟩ := p
    by_cases h : k' = k
    · left; simp [upsert, h]
    · rcases ih with ih | ih
      · left; simp [upsert, h, ih]
      · right; simp [upsert, h, ih]

theorem nodup_keys_upsert (fs : List (String × Json)) (k : String) (v : Json)
    (h : (fs.map Prod.fst).Nodup) : ((upsert fs k v).map Prod.fst).Nodup := by
  induction fs with
  | nil => simp [upsert]
  | cons p tl ih =>
    obtain ⟨k', v'⟩ := p
    simp only [List.map_cons, List.nodup_cons] at h
    by_cases hk : k' = k
    · subst hk
      simpa [upsert, List.nodup_cons] using h
    · simp only [upsert, if_neg hk, List.map_cons, List.nodup_cons]
      refine ⟨?_, ih h.2⟩
      rcases keys_upsert tl k v with he | he
      · rw [he]; exact h.1
      · rw [he]
        simp only [List.mem_append, List.mem_singleton]
        rintro (hm | rfl)
        · exact h.1 hm
        · exact hk rfl

theorem listFind_not_mem (fs : List (String × Json)) (k : String)
    (h : k ∉ fs.map Prod.fst) : listFind k fs = none := by
  induction fs with
  | nil => rfl
  | cons p tl ih =>
    obtain ⟨k', v'⟩ := p
    simp only [List.map_cons, List.mem_cons] at h
    push_neg at h
    simp only [listFind, ih h.2]
    exact if_neg (fun he => h.1 he.symm)

theorem listFind_upsert (fs : List (String × Json)) (k k' : String) (v : Json)
    (hnd : (fs.map Prod.fst).Nodup) :
    listFind k' (upsert fs k v) = if k = k' then some v else listFind k' fs := by
  induction fs with
  | nil =>
    by_cases h : k = k' <;> simp [upsert, listFind, h]
  | cons p tl ih =>
    obtain ⟨k0, v0⟩ := p
    simp only [List.map_cons, List.nodup_cons] at hnd
    by_cases h0 : k0 = k
    · subst h0
      by_cases h : k0 = k'
      · subst h
        have hnone : listFind k0 tl = none := listFind_not_mem tl k0 hnd.1
        simp [upsert, listFind, hnone]
      · simp only [upsert, if_pos rfl, listFind]
        simp [h, fun hh : k0 = k' => h hh]
    · simp only [upsert, if_neg h0, listFind, ih hnd.2]
      by_cases h : k = k'
      · simp [h]
      · simp [h]

theorem listFind_foldl_upsert (kvs : List (String × Json)) (k : String) :
    ∀ acc : List (String × Json), (acc.map Prod.fst).Nodup →
    listFind k (kvs.foldl (fun a p => upsert a p.1 p.2) acc) =
      match listFind k kvs with
      | some w => some w
      | none => listFind k acc := by
  induction kvs with
  | nil => intro acc _; rfl
  | cons p tl ih =>
    intro acc hacc
    obtain ⟨k0, v0⟩ := p
    have h1 := ih (upsert acc k0 v0) (nodup_keys_upsert acc k0 v0 hacc)
    simp only [List.foldl_cons] at *
    rw [h1, listFind_upsert acc k0 k v0 hacc]
    cases hfind : listFind k tl with
    | some w => simp [listFind, hfind]
    | none =>
      by_cases h : k0 = k <;> simp [listFind, hfind, h]

theorem listFind_buildObj (kvs : List (String × Json)) (k : String) :
    listFind k (buildObj kvs) = listFind k kvs := by
  have h := listFind_foldl_upsert kvs k [] (by simp)
  cases hk : listFind k kvs with
  | none => simpa [buildObj, hk, listFind] using h
  | some w => simpa [buildObj, hk] using h

theorem listFind_append (l1 l2 : List (String × Json)) (k : String) :
    listFind k (l1 ++ l2) =
      match listFind k l2 with
      | some w => some w
      | none => listFind k l1 := by
  induction l1 with
  | nil => cases hk : listFind k l2 <;> simp [listFind, hk]
  | cons p tl ih =>
    obtain ⟨k', v⟩ := p
    cases hk : listFind k l2 with
    | none => simp [List.cons_append, listFind, ih, hk]
    | some w => simp [List.cons_append, listFind, ih, hk]

/-- Field lookup on the 200-response body, reduced to last-wins lookup of
the assignment list. -/
theorem member_successBody (t : String) (ad : Json) (docs : List Doc)
    (w r : Nat) (k : String) :
    (successBody t ad docs w r).member k =
      listFind k ([("topic", .str t)] ++ spreadFields ad ++
        [("sources", jarr (docs.map docJson)),
         ("sourceStats", sourceStatsJson w r docs.length)]) := by
  simp only [successBody, jobj, Json.member, find_ofList, listFind_buildObj]

/-- Fields other than `topic`, `sources` and `sourceStats` of the
200-response body come from the spread of the analysis object alone. -/
theorem member_successBody_spread (t : String) (ad : Json) (docs : List Doc)
    (w r : Nat) (k : String) (h1 : k ≠ "topic") (h2 : k ≠ "sources")
    (h3 : k ≠ "sourceStats") :
    (successBody t ad docs w r).member k = listFind k (spreadFields ad) := by
  have nto : ¬ (("topic" : String) = k) := fun h => h1 h.symm
  have nso : ¬ (("sources" : String) = k) := fun h => h2 h.symm
  have nss : ¬ (("sourceStats" : String) = k) := fun h => h3 h.symm
  have e2 : listFind k [("sources", jarr (docs.map docJson)),
      ("sourceStats", sourceStatsJson w r docs.length)] = none := by
    simp [listFind, nso, nss]
  have e1 : listFind k [(("topic" : String), Json.str t)] = none := by
    simp [listFind, nto]
  rw [member_successBody, listFind_append, listFind_append]
  simp only [e2, e1]
  cases hk : listFind k (spreadFields ad) <;> simp [hk]

theorem mapThrow_length {α β : Type} (f : α → Option β) :
    ∀ xs ys, mapThrow f xs = some ys → ys.length = xs.length := by
  intro xs
  induction xs with
  | nil => intro ys h; simp only [mapThrow, Option.some.injEq] at h; simp [← h]
  | cons x tl ih =>
    intro ys h
    simp only [mapThrow] at h
    cases hfx : f x with
    | none => rw [hfx] at h; simp at h
    | some y =>
      rw [hfx] at h
      cases htl : mapThrow f tl with
      | none => rw [htl] at h; simp at h
      | some ztl =>
        rw [htl] at h
        have h' : y :: ztl = ys := Option.some.inj h
        subst h'
        simp [ih ztl htl]

theorem string_empty_append (s : String) : "" ++ s = s := by
  cases s
  show String.mk _ = String.mk _
  simp [String.append]

theorem string_append_empty (s : String) : s ++ "" = s := by
  cases s
  show String.mk _ = String.mk _
  simp [String.append]

/-- The `j`-th document's entry occurs inside the joined listing, with its
1-indexed label shifted by the start index. -/
theorem joinNL_entriesFrom_get :
    ∀ (ds : List Doc) (i j : Nat) (d : Doc), ds.get? j = some d →
      ∃ pre suf, joinNL (entriesFrom i ds) = pre ++ docEntry (i + j) d ++ suf := by
  intro ds
  induction ds with
  | nil => intro i j d h; simp at h
  | cons d0 tl ih =>
    intro i j d h
    cases j with
    | zero =>
      have hd : d = d0 := by simpa using h.symm
      subst hd
      cases tl with
      | nil =>
        refine ⟨"", "", ?_⟩
        simp only [entriesFrom, joinNL, Nat.add_zero]
        rw [string_empty_append, string_append_empty]
      | cons t0 tt =>
        refine ⟨"", "\n" ++ joinNL (entriesFrom (i + 1) (t0 :: tt)), ?_⟩
        simp only [entriesFrom, joinNL, Nat.add_zero]
        rw [string_empty_append, string_append_assoc]
    | succ j' =>
      have htl : tl.get? j' = some d := by simpa using h
      obtain ⟨pre, suf, hps⟩ := ih (i + 1) j' d htl
      cases tl with
      | nil => simp at htl
      | cons t0 tt =>
        refine ⟨docEntry i d0 ++ "\n" ++ pre, suf, ?_⟩
        simp only [entriesFrom, joinNL] at hps ⊢
        rw [hps]
        have harith : i + 1 + j' = i + (j' + 1) := by omega
        rw [harith]
        simp [string_append_assoc]

/-- Every document entry string starts with an opening bracket. -/
theorem docEntry_head (i : Nat) (d : Doc) : (docEntry i d).data.head? = some '[' := by
  have h1 : (("[" : String)).data = ['['] := rfl
  simp only [docEntry, string_data_append, h1, List.cons_append, List.head?]

/-- For a nonempty document list the sources section is the joined
listing, beginning with the first document's entry. -/
theorem sourcesSection_cons (d : Doc) (tl : List Doc) :
    ∃ rest, sourcesSection (d :: tl) = docEntry 0 d ++ rest := by
  cases tl with
  | nil =>
    exact ⟨"", by simp only [sourcesSection, entriesFrom, joinNL, List.length_cons,
      Nat.zero_lt_succ, if_pos]; rw [string_append_empty]⟩
  | cons t0 tt =>
    refine ⟨"\n" ++ joinNL (entriesFrom 1 (t0 :: tt)), ?_⟩
    simp only [sourcesSection, entriesFrom, joinNL, List.length_cons, Nat.zero_lt_succ, if_pos]
    rw [string_append_assoc]

/-- The sources section equals the no-sources fallback exactly when the
document list is empty. -/
theorem sourcesSection_eq_fallback (docs : List Doc) :
    sourcesSection docs = noSourcesText ↔ docs = [] := by
  constructor
  · intro h
    by_contra hne
    obtain ⟨d, tl, rfl⟩ : ∃ d tl, docs = d :: tl := by
      cases docs with
      | nil => exact absurd rfl hne
      | cons d tl => exact ⟨d, tl, rfl⟩
    obtain ⟨rest, hrest⟩ := sourcesSection_cons d tl
    rw [hrest] at h
    have hdata := congrArg String.data h
    rw [string_data_append] at hdata
    have hhead := congrArg List.head? hdata
    have hl : ((docEntry 0 d).data ++ rest.data).head? = some '[' := by
      have hh := docEntry_head 0 d
      cases he : (docEntry 0 d).data with
      | nil => rw [he] at hh; simp at hh
      | cons c cs =>
        rw [he] at hh
        simp only [List.head?] at hh
        simpa [List.head?] using hh
    rw [hl] at hhead
    have hr : (noSourcesText.data).head? = some 'N' := rfl
    rw [hr] at hhead
    simp at hhead
  · intro h; subst h; rfl

/-- On the valid-topic path, a successful synthesis call produces the 200
response built from the spread of the analysis object, with the reddit
effects followed by the Gemini call. -/
theorem POST_ok (pf : Platform) (o : PostOracle) (b ad : Json)
    (hb : o.body = some b) (hbn : b ≠ .null)
    (htf : jsFalsyO (b.member "topic") = false)
    (ht : isStrO (b.member "topic") = true)
    (hcall : callGeminiFlash pf o.hasGeminiKey o.gemini = .ok ad) :
    POST pf o =
      ({ status := 200,
         body := successBody (asStrO (b.member "topic")) ad
           (normalizeData [] (fetchRedditPosts o.reddit)) 0
           (fetchRedditPosts o.reddit).length },
       redditEffects o.reddit ++ [.geminiCall]) := by
  obtain ⟨ob, ored, okey, ogem⟩ := o
  simp only at hb hcall
  subst hb
  simp only [POST, if_neg hbn, htf, ht, Bool.not_true, Bool.or_false, Bool.false_or,
    if_neg (by simp : ¬ (false : Bool) = true), hcall, fetchWebResults]
  rfl

/-- On the valid-topic path, a failed synthesis call produces the 500
response carrying the error message. -/
theorem POST_err (pf : Platform) (o : PostOracle) (b : Json) (e : GeminiError)
    (hb : o.body = some b) (hbn : b ≠ .null)
    (htf : jsFalsyO (b.member "topic") = false)
    (ht : isStrO (b.member "topic") = true)
    (hcall : callGeminiFlash pf o.hasGeminiKey o.gemini = .error e) :
    POST pf o =
      ({ status := 500, body := errBody (e.message pf) },
       redditEffects o.reddit ++ geminiEffects o.hasGeminiKey) := by
  obtain ⟨ob, ored, okey, ogem⟩ := o
  simp only at hb hcall
  subst hb
  simp only [POST, if_neg hbn, htf, ht, Bool.not_true, Bool.or_false, Bool.false_or,
    if_neg (by simp : ¬ (false : Bool) = true), hcall]

/-- A successful `callGeminiFlash` implies the API key was present. -/
theorem callGeminiFlash_ok_hasKey (pf : Platform) (hk : Bool) (g : GeminiResponse)
    (ad : Json) (h : callGeminiFlash pf hk g = .ok ad) : hk = true := by
  cases hk with
  | true => rfl
  | false => simp [callGeminiFlash] at h

/-! ## Concrete fixtures used by witnesses and counterexamples -/

/-- A concrete platform: `JSON.parse` defined on the strings the
scenarios exercise (the empty object literal parses to the empty object,
everything else fails to parse), with apostrophe-free stand-ins for the
engine-generated error texts. -/
def pfFix : Platform :=
  { parse := fun s => if s = "\x7b\x7d" then some (jobj []) else none
    reqBodyParseMsg := "Unexpected end of JSON input"
    reqBodyNullMsg := "Cannot destructure property topic of null"
    geminiBodyParseMsg := "Unexpected token in JSON"
    geminiNullBodyMsg := "Cannot read properties of null" }

/-- A Gemini response whose candidate text is the empty JSON object. -/
def gemOkEmpty : GeminiResponse :=
  { ok := true
    body := some (jobj [("candidates", jarr [jobj [("content", jobj [("parts",
      jarr [jobj [("text", .str "\x7b\x7d")]])])]])]) }

/-- A Gemini response whose candidate text is the literal `not json`. -/
def gemNotJson : GeminiResponse :=
  { ok := true
    body := some (jobj [("candidates", jarr [jobj [("content", jobj [("parts",
      jarr [jobj [("text", .str "not json")]])])]])]) }

/-- A Gemini response with success status whose JSON body lacks the
candidate text path entirely. -/
def gemNoText : GeminiResponse := { ok := true, body := some (jobj []) }

/-- A request oracle with a valid topic, failing Reddit token call, and
the given Gemini response. -/
def okTopicOracle (g : GeminiResponse) : PostOracle :=
  { body := some (jobj [("topic", .str "ai")])
    reddit := ⟨none, none⟩
    hasGeminiKey := true
    gemini := g }

/-! ## Claims -/

/-- C3: for every synthesis response whose candidate text is not
parseable JSON, the pipeline raises the typed malformed-response error
and the HTTP boundary maps it to a 500 whose error message is the fixed
generic string "Failed to parse analysis from AI response." -- the same
constant for every raw text, hence independent of the model output --
and that constant does not contain the raw text of the end-to-end
scenario, `not json`. -/
theorem c3_unparseable_synthesis_500_generic (pf : Platform) (o : PostOracle)
    (b data : Json) (tv : Option Json)
    (hb : o.body = some b) (hbn : b ≠ .null)
    (htf : jsFalsyO (b.member "topic") = false)
    (ht : isStrO (b.member "topic") = true)
    (hkey : o.hasGeminiKey = true)
    (hgem : o.gemini = { ok := true, body := some data })
    (htv : candidateTextVal data = .ok tv)
    (hparse : pf.parse (if jsFalsyO tv then "\x7b\x7d" else jsToStringO tv) = none) :
    (POST pf o).1.status = 500 ∧
    (POST pf o).1.body =
      jobj [("error", .str "Failed to parse analysis from AI response.")] ∧
    strHas "not json" "Failed to parse analysis from AI response." = false := by
  have hcall : callGeminiFlash pf o.hasGeminiKey o.gemini = .error .malformed := by
    rw [hgem, hkey]
    simp only [callGeminiFlash, htv, hparse]
    rfl
  rw [POST_err pf o b .malformed hb hbn htf ht hcall]
  refine ⟨rfl, ?_, by decide⟩
  simp [errBody, GeminiError.message]

/-- C3 witness: the scenario where the model replies with the literal
text `not json`. -/
theorem c3_witness :
    (POST pfFix (okTopicOracle gemNotJson)).1.status = 500 ∧
    (POST pfFix (okTopicOracle gemNotJson)).1.body =
      jobj [("error", .str "Failed to parse analysis from AI response.")] ∧
    strHas "not json" "Failed to parse analysis from AI response." = false :=
  c3_unparseable_synthesis_500_generic pfFix (okTopicOracle gemNotJson)
    (jobj [("topic", .str "ai")])
    (jobj [("candidates", jarr [jobj [("content", jobj [("parts",
      jarr [jobj [("text", .str "not json")]])])]])])
    (some (.str "not json"))
    rfl (by decide) (by decide) (by decide) rfl rfl rfl (by decide)

/-- C4: every failure mode of the Reddit source fetch -- credential
provider throw, search-call throw, missing or non-array children in the
payload, or a child whose transformation throws -- yields the empty list
without raising; and with a failed token call the pipeline still calls
synthesis and returns its 200 result. -/
theorem c4_source_failures_absorbed :
    (∀ o : RedditOracle, o.tokenResult = none → fetchRedditPosts o = []) ∧
    (∀ o : RedditOracle, o.fetchResult = none → fetchRedditPosts o = []) ∧
    (∀ (tk : String) (data : Json),
      (∀ xs, optChain (data.member "data") (fun d => d.member "children") ≠ some (.arr xs)) →
      fetchRedditPosts ⟨some tk, some data⟩ = []) ∧
    (∀ (tk : String) (data : Json) (xs : JsonList),
      optChain (data.member "data") (fun d => d.member "children") = some (.arr xs) →
      mapThrow transformChild xs.toList = none →
      fetchRedditPosts ⟨some tk, some data⟩ = []) ∧
    (∀ (pf : Platform) (o : PostOracle) (b ad : Json),
      o.body = some b → b ≠ .null →
      jsFalsyO (b.member "topic") = false → isStrO (b.member "topic") = true →
      o.reddit.tokenResult = none →
      callGeminiFlash pf o.hasGeminiKey o.gemini = .ok ad →
      (POST pf o).1.status = 200 ∧
      (POST pf o).2 = [.redditTokenCall, .geminiCall]) := by
  refine ⟨?_, ?_, ?_, ?_, ?_⟩
  · intro o h
    obtain ⟨tk, fr⟩ := o
    simp only at h
    subst h
    rfl
  · intro o h
    obtain ⟨tk, fr⟩ := o
    simp only at h
    subst h
    cases tk <;> rfl
  · intro tk data h
    have hunf : fetchRedditPosts ⟨some tk, some data⟩ =
        (if data = .null then []
         else
           match optChain (data.member "data") (fun d => d.member "children") with
           | some (.arr xs) => (mapThrow transformChild xs.toList).getD []
           | _ => []) := rfl
    rw [hunf]
    by_cases hn : data = .null
    · rw [if_pos hn]
    · rw [if_neg hn]
      cases hch : optChain (data.member "data") (fun d => d.member "children") with
      | none => rfl
      | some j =>
        cases j with
        | null => rfl
        | bool bb => rfl
        | num n => rfl
        | str s => rfl
        | obj fs => rfl
        | arr xs => exact absurd hch (h xs)
  · intro tk data xs hch hmap
    have hn : data ≠ .null := by
      intro he
      subst he
      simp [Json.member, optChain] at hch
    simp [fetchRedditPosts, if_neg hn, hch, hmap]
  · intro pf o b ad hb hbn htf ht hred hcall
    rw [POST_ok pf o b ad hb hbn htf ht hcall]
    refine ⟨rfl, ?_⟩
    rcases o with ⟨ob, ⟨tk, fr⟩, okey, ogem⟩
    simp only at hred
    subst hred
    rfl

/-- C4 witness: the token call fails, Gemini succeeds on the empty
object text, and the route still returns 200 having called synthesis. -/
theorem c4_witness :
    fetchRedditPosts ⟨none, none⟩ = [] ∧
    fetchRedditPosts ⟨some "tk", none⟩ = [] ∧
    fetchRedditPosts ⟨some "tk", some (jobj [])⟩ = [] ∧
    fetchRedditPosts ⟨some "tk",
      some (jobj [("data", jobj [("children", jarr [.null])])])⟩ = [] ∧
    ((POST pfFix (okTopicOracle gemOkEmpty)).1.status = 200 ∧
      (POST pfFix (okTopicOracle gemOkEmpty)).2 = [.redditTokenCall, .geminiCall]) :=
  ⟨c4_source_failures_absorbed.1 ⟨none, none⟩ rfl,
   c4_source_failures_absorbed.2.1 ⟨some "tk", none⟩ rfl,
   c4_source_failures_absorbed.2.2.1 "tk" (jobj []) (fun xs h => by
     simp [jobj, Json.member, JsonFields.ofList, JsonFields.find, optChain] at h),
   c4_source_failures_absorbed.2.2.2.1 "tk"
     (jobj [("data", jobj [("children", jarr [.null])])]) (.cons .null .nil)
     rfl rfl,
   c4_source_failures_absorbed.2.2.2.2 pfFix (okTopicOracle gemOkEmpty)
     (jobj [("topic", .str "ai")]) (jobj []) rfl (by decide) (by decide) (by decide)
     rfl rfl⟩

/-- A request oracle whose parsed body is JSON null. -/
def nullBodyOracle : PostOracle :=
  { body := some .null
    reddit := ⟨none, none⟩
    hasGeminiKey := true
    gemini := gemOkEmpty }

/-- A request oracle whose parsed body is an object without a topic. -/
def noTopicOracle : PostOracle :=
  { body := some (jobj [])
    reddit := ⟨none, none⟩
    hasGeminiKey := true
    gemini := gemOkEmpty }

/-- C5 counterexample: a request whose parsed body is JSON null has a
missing topic, yet the route responds 500 (the destructuring of null
throws a TypeError caught by the catch-all), not the claimed 400. -/
theorem c5_null_body_counterexample :
    (POST pfFix nullBodyOracle).1.status = 500 ∧
    (POST pfFix nullBodyOracle).1.status ≠ 400 := by decide

/-- C5 (amended): for every request whose parsed body is a non-null JSON
value with a missing, empty or non-string topic, the route returns 400
with an error field and performs no external call at all (no source
fetch, no synthesis); a JSON-null body instead yields a 500 through the
caught destructuring TypeError. -/
theorem c5_invalid_topic_400_no_calls (pf : Platform) (o : PostOracle) (b : Json)
    (hb : o.body = some b) (hbn : b ≠ .null)
    (hinv : (jsFalsyO (b.member "topic") || !(isStrO (b.member "topic"))) = true) :
    POST pf o =
      ({ status := 400, body := jobj [("error", .str "Missing or invalid topic")] }, []) := by
  obtain ⟨ob, ored, okey, ogem⟩ := o
  simp only at hb
  subst hb
  simp only [POST, if_neg hbn, hinv, if_pos]

/-- C5 witness: a body without any topic field. -/
theorem c5_witness :
    POST pfFix noTopicOracle =
      ({ status := 400, body := jobj [("error", .str "Missing or invalid topic")] }, []) :=
  c5_invalid_topic_400_no_calls pfFix noTopicOracle (jobj []) rfl (by decide) (by decide)

/-- The document `normalizeData` produces from an empty web record. -/
def emptyWebDoc : Doc :=
  { source := "Web", title := some (.str ""), url := some (.str ""),
    snippet := some (.str ""), metadata := .obj .nil }

/-- C6 counterexample: a record whose normalized title and snippet are
both empty is NOT dropped -- `normalizeData` keeps it, so the output
contains a document with empty title and empty snippet. -/
theorem c6_empty_doc_retained_counterexample :
    normalizeData [jobj []] [] = [emptyWebDoc] ∧
    emptyWebDoc.title = some (.str "") ∧ emptyWebDoc.snippet = some (.str "") :=
  ⟨by decide, rfl, rfl⟩

/-- C6 (amended): `normalizeData` applies no drop filter at all: its
output is exactly the per-record mapping of the web list followed by the
Reddit list, one document per input record, so records with empty title
and empty snippet are retained. -/
theorem c6_normalizer_no_filter (web : List Json) (redditPosts : List RedditPost) :
    normalizeData web redditPosts =
      web.map normWebRecord ++ redditPosts.map normRedditPost ∧
    (normalizeData web redditPosts).length = web.length + redditPosts.length :=
  ⟨rfl, by simp [normalizeData]⟩

/-- A Reddit payload carrying eleven children. -/
def manyChildren : Json :=
  jobj [("data", jobj [("children", jarr (List.replicate 11 (jobj [("data", jobj [])])))])]

/-- C7 counterexample: when the upstream payload carries eleven children,
`fetchRedditPosts` returns eleven records -- the client applies no cap of
its own on the returned record count. -/
theorem c7_eleven_records_counterexample :
    (fetchRedditPosts ⟨some "tk", some manyChildren⟩).length = 11 ∧
    ¬ ((fetchRedditPosts ⟨some "tk", some manyChildren⟩).length ≤ 10) := by decide

/-- C7 (amended): the only cap is requested from the upstream service via
the `limit=10` query parameter of the search endpoint; the client itself
returns one record per child of the upstream payload, however many there
are. -/
theorem c7_cap_only_requested_upstream :
    (∀ topic, ∃ p, redditEndpoint topic = p ++ "&sort=relevance&limit=10&type=link") ∧
    (∀ (tk : String) (data : Json) (xs : JsonList) (posts : List RedditPost),
      optChain (data.member "data") (fun d => d.member "children") = some (.arr xs) →
      mapThrow transformChild xs.toList = some posts →
      fetchRedditPosts ⟨some tk, some data⟩ = posts ∧
      posts.length = xs.toList.length) := by
  refine ⟨fun topic => ⟨"/search?q=" ++ encodeURIComponent topic, rfl⟩, ?_⟩
  intro tk data xs posts hch hmap
  have hn : data ≠ .null := fun he => by subst he; simp [Json.member, optChain] at hch
  have hunf : fetchRedditPosts ⟨some tk, some data⟩ =
      (if data = .null then []
       else
         match optChain (data.member "data") (fun d => d.member "children") with
         | some (.arr ys) => (mapThrow transformChild ys.toList).getD []
         | _ => []) := rfl
  constructor
  · rw [hunf, if_neg hn, hch]
    show (mapThrow transformChild xs.toList).getD [] = posts
    rw [hmap]
    rfl
  · exact mapThrow_length transformChild xs.toList posts hmap

/-- The record built from a child whose post object has no fields. -/
def postUndef : RedditPost :=
  { id := none, title := none, selftext := none, author := none, subreddit := none,
    score := none, num_comments := none, created_utc := none, url := none,
    permalink := "https://reddit.comundefined", thumbnail := none }

/-- C7 witness: one child in the payload, one record out. -/
theorem c7_witness :
    (∃ p, redditEndpoint "ai" = p ++ "&sort=relevance&limit=10&type=link") ∧
    (fetchRedditPosts ⟨some "tk",
        some (jobj [("data", jobj [("children", jarr [jobj [("data", jobj [])]])])])⟩ =
      [postUndef] ∧
      ([postUndef] : List RedditPost).length =
        (JsonList.ofList [jobj [("data", jobj [])]]).toList.length) :=
  ⟨c7_cap_only_requested_upstream.1 "ai",
   c7_cap_only_requested_upstream.2 "tk"
     (jobj [("data", jobj [("children", jarr [jobj [("data", jobj [])]])])])
     (JsonList.ofList [jobj [("data", jobj [])]]) [postUndef] rfl (by decide)⟩

/-- A Reddit record whose body text has the given length. -/
def longPost (n : Nat) : RedditPost :=
  { id := none, title := none,
    selftext := some (.str (String.mk (List.replicate n 'a'))),
    author := none, subreddit := none, score := none, num_comments := none,
    created_utc := none, url := none, permalink := "", thumbnail := none }

theorem longPost_snippet_length (n : Nat) (hn : 0 < n) :
    (jsToStringO ((normRedditPost (longPost n)).snippet)).length = n := by
  have hne : String.mk (List.replicate n 'a') ≠ "" := by
    intro h
    have h2 := congrArg String.data h
    simp [List.replicate_eq_nil_iff] at h2
    omega
  have hsnip : (normRedditPost (longPost n)).snippet =
      some (.str (String.mk (List.replicate n 'a'))) := by
    simp [normRedditPost, longPost, jsOrO, jsFalsyO, jsFalsy, hne]
  rw [hsnip]
  simp [jsToStringO, jsToString, String.length]

/-- C8 counterexample: the normalized Reddit snippet is NOT truncated to
any bound -- for every candidate bound there is an upstream body whose
normalized snippet, as rendered into the prompt, is longer. -/
theorem c8_snippet_unbounded_counterexample :
    ¬ ∃ B : Nat, ∀ (post : RedditPost), ∀ d ∈ normalizeData [] [post],
      (jsToStringO d.snippet).length ≤ B := by
  rintro ⟨B, hB⟩
  have hle := hB (longPost (B + 1)) (normRedditPost (longPost (B + 1)))
    (by simp [normalizeData])
  rw [longPost_snippet_length (B + 1) (by omega)] at hle
  omega

/-- C8 (amended): no truncation exists anywhere: the document entry of
the prompt embeds the snippet text verbatim, the normalized Reddit
snippet is the raw `selftext || title` of the upstream post, and the
snippet length placed into the prompt grows without bound in the length
of the upstream body. -/
theorem c8_no_truncation :
    (∀ (i : Nat) (d : Doc), ∃ pre suf,
      docEntry i d = pre ++ jsToStringO d.snippet ++ suf) ∧
    (∀ post : RedditPost, (normRedditPost post).snippet = jsOrO post.selftext post.title) ∧
    (∀ B : Nat, ∃ (post : RedditPost) (d : Doc),
      d ∈ normalizeData [] [post] ∧ B < (jsToStringO d.snippet).length) := by
  refine ⟨?_, fun post => rfl, ?_⟩
  · intro i d
    refine ⟨"[" ++ (toString (i + 1) ++ ("] Source: " ++ (d.source ++ ("\nTitle: " ++
      (jsToStringO d.title ++ "\nContent: "))))),
      "\n" ++ ((if jsFalsy d.metadata then ""
        else "Additional Context: " ++ stringifyVal "" d.metadata) ++ "\n"), ?_⟩
    simp [docEntry, string_append_assoc]
  · intro B
    refine ⟨longPost (B + 1), normRedditPost (longPost (B + 1)),
      by simp [normalizeData], ?_⟩
    rw [longPost_snippet_length (B + 1) (by omega)]
    omega

/-- C9: the prompt is the header (with topic and document count), then
the sources section, then the fixed footer; the sources section is the
background-knowledge fallback exactly when the document list is empty;
for a nonempty list every document's entry occurs in the section, labeled
with its 1-indexed position and containing the document's source tag,
title, snippet and stringified metadata. -/
theorem c9_prompt_enumeration_iff_fallback (topic : String) (docs : List Doc) :
    geminiPrompt topic docs =
      promptHeader topic docs.length ++ sourcesSection docs ++ promptFooter ∧
    (sourcesSection docs = noSourcesText ↔ docs = []) ∧
    (∀ (j : Nat) (d : Doc), docs.get? j = some d →
      ∃ pre suf, sourcesSection docs = pre ++ docEntry j d ++ suf) ∧
    (∀ (j : Nat) (d : Doc), docEntry j d =
      "[" ++ toString (j + 1) ++ "] Source: " ++ d.source ++ "\nTitle: " ++
        jsToStringO d.title ++ "\nContent: " ++ jsToStringO d.snippet ++ "\n" ++
        (if jsFalsy d.metadata then ""
         else "Additional Context: " ++ stringifyVal "" d.metadata) ++ "\n") := by
  refine ⟨rfl, sourcesSection_eq_fallback docs, ?_, fun j d => rfl⟩
  intro j d hget
  have hpos : 0 < docs.length := by
    cases docs with
    | nil => simp at hget
    | cons _ _ => simp
  have hsec : sourcesSection docs = joinNL (entriesFrom 0 docs) := by
    simp [sourcesSection, hpos]
  obtain ⟨pre, suf, hps⟩ := joinNL_entriesFrom_get docs 0 j d hget
  refine ⟨pre, suf, ?_⟩
  rw [hsec, hps, Nat.zero_add]

/-- C9 witness: a one-document listing contains that document's entry,
and a one-document listing is not the fallback text. -/
theorem c9_witness :
    (∃ pre suf, sourcesSection [emptyWebDoc] = pre ++ docEntry 0 emptyWebDoc ++ suf) ∧
    (sourcesSection [emptyWebDoc] = noSourcesText ↔ ([emptyWebDoc] : List Doc) = []) :=
  ⟨(c9_prompt_enumeration_iff_fallback "t" [emptyWebDoc]).2.2.1 0 emptyWebDoc rfl,
   (c9_prompt_enumeration_iff_fallback "t" [emptyWebDoc]).2.1⟩

/-- C1 counterexample: when the model output is the valid JSON `\x7b\x7d`
(missing every expected field), the 200 payload of the route omits
`summary`, `perspectives`, `contrasting_points` and `insights` entirely
instead of filling schema-conformant defaults. -/
theorem c1_server_omits_missing_fields_counterexample :
    (POST pfFix (okTopicOracle gemOkEmpty)).1.status = 200 ∧
    ((POST pfFix (okTopicOracle gemOkEmpty)).1.body).member "summary" = none ∧
    ((POST pfFix (okTopicOracle gemOkEmpty)).1.body).member "perspectives" = none ∧
    ((POST pfFix (okTopicOracle gemOkEmpty)).1.body).member "contrasting_points" = none ∧
    ((POST pfFix (okTopicOracle gemOkEmpty)).1.body).member "insights" = none := by decide

/-- C1 (amended): the route itself applies no response validation: any
expected field absent from the parsed model object (other than the
`topic`/`sources`/`sourceStats` keys the route adds) is absent from the
200 payload; the schema-conformant defaulting the claim describes is
performed client-side by `fetchAnalysis` in the analysis page, whose
validation substitutes the placeholder summary and empty arrays. -/
theorem c1_defaulting_happens_client_side :
    (∀ (pf : Platform) (o : PostOracle) (b : Json) (fs : JsonFields) (k : String),
      o.body = some b → b ≠ .null →
      jsFalsyO (b.member "topic") = false → isStrO (b.member "topic") = true →
      callGeminiFlash pf o.hasGeminiKey o.gemini = .ok (.obj fs) →
      fs.find k = none → k ≠ "topic" → k ≠ "sources" → k ≠ "sourceStats" →
      (POST pf o).1.status = 200 ∧ ((POST pf o).1.body).member k = none) ∧
    (∀ data : Json,
      (jsFalsyO (data.member "summary") = true →
        (validatedData data).summary = .str "No summary provided.") ∧
      ((∀ xs, data.member "perspectives" ≠ some (.arr xs)) →
        (validatedData data).perspectives = []) ∧
      ((∀ xs, data.member "contrasting_points" ≠ some (.arr xs)) →
        (validatedData data).contrasting_points = []) ∧
      ((∀ xs, data.member "insights" ≠ some (.arr xs)) →
        (validatedData data).insights = [])) := by
  constructor
  · intro pf o b fs k hb hbn htf ht hcall hfind h1 h2 h3
    rw [POST_ok pf o b (.obj fs) hb hbn htf ht hcall]
    refine ⟨rfl, ?_⟩
    rw [member_successBody_spread _ _ _ _ _ k h1 h2 h3,
      show spreadFields (.obj fs) = fs.toList from rfl, find_toList]
    exact hfind
  · intro data
    refine ⟨?_, ?_, ?_, ?_⟩
    · intro h
      cases hm : data.member "summary" with
      | none => simp [validatedData, hm]
      | some j =>
        rw [hm] at h
        simp only [jsFalsyO] at h
        simp [validatedData, hm, h]
    · intro h
      cases hm : data.member "perspectives" with
      | none => simp [validatedData, hm]
      | some j =>
        cases j with
        | arr xs => exact absurd hm (h xs)
        | null => simp [validatedData, hm]
        | bool bb => simp [validatedData, hm]
        | num n => simp [validatedData, hm]
        | str str1 => simp [validatedData, hm]
        | obj fs2 => simp [validatedData, hm]
    · intro h
      cases hm : data.member "contrasting_points" with
      | none => simp [validatedData, hm]
      | some j =>
        cases j with
        | arr xs => exact absurd hm (h xs)
        | null => simp [validatedData, hm]
        | bool bb => simp [validatedData, hm]
        | num n => simp [validatedData, hm]
        | str str1 => simp [validatedData, hm]
        | obj fs2 => simp [validatedData, hm]
    · intro h
      cases hm : data.member "insights" with
      | none => simp [validatedData, hm]
      | some j =>
        cases j with
        | arr xs => exact absurd hm (h xs)
        | null => simp [validatedData, hm]
        | bool bb => simp [validatedData, hm]
        | num n => simp [validatedData, hm]
        | str str1 => simp [validatedData, hm]
        | obj fs2 => simp [validatedData, hm]

/-- C1 witness: the empty-object model output leaves `summary` out of the
payload, and the client validation then substitutes the placeholder. -/
theorem c1_witness :
    ((POST pfFix (okTopicOracle gemOkEmpty)).1.status = 200 ∧
      ((POST pfFix (okTopicOracle gemOkEmpty)).1.body).member "summary" = none) ∧
    (validatedData (jobj [])).summary = .str "No summary provided." :=
  ⟨c1_defaulting_happens_client_side.1 pfFix (okTopicOracle gemOkEmpty)
      (jobj [("topic", .str "ai")]) .nil "summary" rfl (by decide) (by decide)
      (by decide) rfl rfl (by decide) (by decide) (by decide),
    (c1_defaulting_happens_client_side.2 (jobj [])).1 rfl⟩

/-- A platform whose `JSON.parse` yields a perspectives list with an
out-of-enum sentiment on the text `P`. -/
def pfPersp : Platform :=
  { parse := fun s =>
      if s = "P" then
        some (jobj [("perspectives",
          jarr [jobj [("title", .str "T"), ("sentiment", .str "Ecstatic")]])])
      else none
    reqBodyParseMsg := "a", reqBodyNullMsg := "b"
    geminiBodyParseMsg := "c", geminiNullBodyMsg := "d" }

/-- A Gemini response whose candidate text is `P`. -/
def gemPersp : GeminiResponse :=
  { ok := true
    body := some (jobj [("candidates", jarr [jobj [("content", jobj [("parts",
      jarr [jobj [("text", .str "P")]])])]])]) }

/-- C2 counterexample: a parsed model output whose perspective carries
the sentiment `Ecstatic` -- outside the three-value enum -- is passed
through verbatim into the 200 payload rather than being replaced by
`Neutral`. -/
theorem c2_sentiment_passthrough_counterexample :
    (POST pfPersp (okTopicOracle gemPersp)).1.status = 200 ∧
    ((POST pfPersp (okTopicOracle gemPersp)).1.body).member "perspectives" =
      some (jarr [jobj [("title", .str "T"), ("sentiment", .str "Ecstatic")]]) ∧
    (jobj [("title", .str "T"), ("sentiment", .str "Ecstatic")]).member "sentiment" =
      some (.str "Ecstatic") ∧
    (Json.str "Ecstatic") ∉
      ([.str "Positive", .str "Negative", .str "Neutral"] : List Json) := by decide

/-- C2 (amended): no code coerces or validates sentiments.  The route
passes the parsed `perspectives` value through to the payload unchanged;
the only place the three-value enum exists is the prompt text instructing
the model; and the client-side validation keeps perspective elements
verbatim whenever the field is an array. -/
theorem c2_sentiment_never_coerced :
    (∀ (pf : Platform) (o : PostOracle) (b : Json) (fs : JsonFields) (v : Json),
      o.body = some b → b ≠ .null →
      jsFalsyO (b.member "topic") = false → isStrO (b.member "topic") = true →
      callGeminiFlash pf o.hasGeminiKey o.gemini = .ok (.obj fs) →
      fs.find "perspectives" = some v →
      ((POST pf o).1.body).member "perspectives" = some v) ∧
    (∀ (topic : String) (docs : List Doc), ∃ pre suf,
      geminiPrompt topic docs = pre ++ sentimentRule ++ suf) ∧
    (∀ (data : Json) (xs : JsonList), data.member "perspectives" = some (.arr xs) →
      (validatedData data).perspectives = xs.toList) := by
  refine ⟨?_, ?_, ?_⟩
  · intro pf o b fs v hb hbn htf ht hcall hfind
    rw [POST_ok pf o b (.obj fs) hb hbn htf ht hcall]
    rw [member_successBody_spread _ _ _ _ _ "perspectives" (by decide) (by decide) (by decide),
      show spreadFields (.obj fs) = fs.toList from rfl, find_toList]
    exact hfind
  · intro topic docs
    refine ⟨promptHeader topic docs.length ++ (sourcesSection docs ++
      (promptInstructions ++ (promptSchema ++ promptRulesA))), promptRulesB, ?_⟩
    simp [geminiPrompt, promptFooter, string_append_assoc]
  · intro data xs hm
    simp [validatedData, hm]

/-- C2 witness: the Ecstatic-sentiment output is passed through by the
route, and kept verbatim by the client validation. -/
theorem c2_witness :
    ((POST pfPersp (okTopicOracle gemPersp)).1.body).member "perspectives" =
      some (jarr [jobj [("title", .str "T"), ("sentiment", .str "Ecstatic")]]) ∧
    (validatedData (jobj [("perspectives",
        jarr [jobj [("sentiment", .str "Ecstatic")]])])).perspectives =
      [jobj [("sentiment", .str "Ecstatic")]] :=
  ⟨c2_sentiment_never_coerced.1 pfPersp (okTopicOracle gemPersp)
      (jobj [("topic", .str "ai")])
      (JsonFields.ofList [("perspectives",
        jarr [jobj [("title", .str "T"), ("sentiment", .str "Ecstatic")]])])
      (jarr [jobj [("title", .str "T"), ("sentiment", .str "Ecstatic")]])
      rfl (by decide) (by decide) (by decide) rfl rfl,
    c2_sentiment_never_coerced.2.2
      (jobj [("perspectives", jarr [jobj [("sentiment", .str "Ecstatic")]])])
      (JsonList.ofList [jobj [("sentiment", .str "Ecstatic")]]) rfl⟩

/-- A Gemini response with success status whose JSON body is null. -/
def gemNullBody : GeminiResponse := { ok := true, body := some .null }

/-- C10 counterexample: a success-status synthesis response whose JSON
body is null lacks the candidate text path, yet the route returns 500
(reading `.candidates` on null throws), not the claimed 200. -/
theorem c10_null_gemini_body_counterexample :
    (POST pfFix (okTopicOracle gemNullBody)).1.status = 500 ∧
    (POST pfFix (okTopicOracle gemNullBody)).1.status ≠ 200 := by decide

/-- C10 (amended): for every success-status synthesis response whose
non-null JSON body lacks the candidate text path (or carries an empty
text), the code substitutes the literal empty-object text, parsing
succeeds, no malformed-response error is raised, and the route returns
200 with `topic`, `sources` and `sourceStats` present while `summary`,
`perspectives`, `contrasting_points` and `insights` are entirely absent;
a null body instead throws a TypeError and yields a 500. -/
theorem c10_missing_text_200_without_fields
    (pf : Platform) (o : PostOracle) (b data : Json) (tv : Option Json)
    (hb : o.body = some b) (hbn : b ≠ .null)
    (htf : jsFalsyO (b.member "topic") = false) (ht : isStrO (b.member "topic") = true)
    (hkey : o.hasGeminiKey = true)
    (hgem : o.gemini = { ok := true, body := some data })
    (htv : candidateTextVal data = .ok tv)
    (hmiss : tv = none ∨ tv = some (.str ""))
    (hparse : pf.parse "\x7b\x7d" = some (jobj [])) :
    (POST pf o).1.status = 200 ∧
    ((POST pf o).1.body).member "topic" = some (.str (asStrO (b.member "topic"))) ∧
    (∃ v, ((POST pf o).1.body).member "sources" = some v) ∧
    (∃ v, ((POST pf o).1.body).member "sourceStats" = some v) ∧
    ((POST pf o).1.body).member "summary" = none ∧
    ((POST pf o).1.body).member "perspectives" = none ∧
    ((POST pf o).1.body).member "contrasting_points" = none ∧
    ((POST pf o).1.body).member "insights" = none := by
  have hfal : jsFalsyO tv = true := by
    rcases hmiss with rfl | rfl <;> simp [jsFalsyO, jsFalsy]
  have hcall : callGeminiFlash pf o.hasGeminiKey o.gemini = .ok (.obj .nil) := by
    rw [hgem, hkey]
    simp only [callGeminiFlash, htv, hfal, if_true, hparse]
    rfl
  rw [POST_ok pf o b (.obj .nil) hb hbn htf ht hcall]
  exact ⟨rfl, rfl,
    ⟨jarr ((normalizeData [] (fetchRedditPosts o.reddit)).map docJson), rfl⟩,
    ⟨sourceStatsJson 0 (fetchRedditPosts o.reddit).length
      (normalizeData [] (fetchRedditPosts o.reddit)).length, rfl⟩,
    rfl, rfl, rfl, rfl⟩

/-- C10 witness: success status, body an empty object (no candidates),
empty-object parse supplied: 200 with the analysis fields absent. -/
theorem c10_witness :
    (POST pfFix (okTopicOracle gemNoText)).1.status = 200 ∧
    ((POST pfFix (okTopicOracle gemNoText)).1.body).member "topic" =
      some (.str (asStrO ((jobj [("topic", .str "ai")]).member "topic"))) ∧
    (∃ v, ((POST pfFix (okTopicOracle gemNoText)).1.body).member "sources" = some v) ∧
    (∃ v, ((POST pfFix (okTopicOracle gemNoText)).1.body).member "sourceStats" = some v) ∧
    ((POST pfFix (okTopicOracle gemNoText)).1.body).member "summary" = none ∧
    ((POST pfFix (okTopicOracle gemNoText)).1.body).member "perspectives" = none ∧
    ((POST pfFix (okTopicOracle gemNoText)).1.body).member "contrasting_points" = none ∧
    ((POST pfFix (okTopicOracle gemNoText)).1.body).member "insights" = none :=
  c10_missing_text_200_without_fields pfFix (okTopicOracle gemNoText)
    (jobj [("topic", .str "ai")]) (jobj []) none rfl (by decide) (by decide)
    (by decide) rfl rfl rfl (Or.inl rfl) rfl
